import Mathlib

/-!
Shallow embedding of the auto-create-bot scheduling core
(`src/services/scheduler.ts`, `src/services/storage.ts`,
`src/services/tokenCreator.ts`) and proofs about it.

Numbers that the TypeScript source handles as `number` are embedded as `ℚ`
(timestamps, delays, randomness draws) or `ℕ`/`ℤ` (counts, indices).
`Math.random()` is embedded as an explicit stream `rand : ℕ → ℚ` whose values
the caller assumes to lie in `[0, 1)`; each call site consumes a distinct
index of the stream.

The file is organized as definitions first, then theorems.
-/

namespace AutoCreateBot

/-! # Definitions -/

/-- A prepared token's metadata (`PreparedToken` in `src/types/index.ts`);
only the fields the scheduler touches are carried. -/
structure PreparedToken where
  name : String
  symbol : String
  tokenURI : String
  deriving Repr, DecidableEq

/-- One entry of `BotState.createdTokens` (`src/services/storage.ts`). -/
structure CreatedToken where
  tokenAddress : String
  metadata : PreparedToken
  createdAt : ℚ
  walletIndex : ℕ
  deriving Repr, DecidableEq

/-- The durable progress record (`BotState` in `src/services/storage.ts`).
`startTime` and `lastCreatedAt` are optional fields of the JSON record. -/
structure BotState where
  tokensCreated : ℕ
  startTime : Option ℚ
  lastCreatedAt : Option ℚ
  createdTokens : List CreatedToken
  deriving Repr, DecidableEq

/-- The record `loadState` returns when no state file exists. -/
def emptyState : BotState :=
  { tokensCreated := 0, startTime := none, lastCreatedAt := none,
    createdTokens := [] }

/-- Embeds `loadState` (`src/services/storage.ts`): the on-disk record when
one exists, the empty record otherwise.  The disk is `Option BotState`. -/
def loadState (disk : Option BotState) : BotState :=
  disk.getD emptyState

/-- The lock table of `WalletLockManager`: a `Map<number, boolean>` read
through `get` with a missing key treated as `false`, embedded as its lookup
function. -/
def LockTable : Type := ℕ → Bool

/-- Embeds `WalletLockManager.tryAcquire`: returns `false` and leaves the
table unchanged when the wallet is already locked; otherwise marks it locked
and returns `true`. -/
def tryAcquire (locks : LockTable) (walletIndex : ℕ) : Bool × LockTable :=
  if locks walletIndex then
    (false, locks)
  else
    (true, fun j => if j = walletIndex then true else locks j)

/-- Embeds `WalletLockManager.release`: unconditionally marks the wallet
unlocked. -/
def release (locks : LockTable) (walletIndex : ℕ) : LockTable :=
  fun j => if j = walletIndex then false else locks j

/-- Embeds `WalletLockManager.isLocked`. -/
def isLocked (locks : LockTable) (walletIndex : ℕ) : Bool :=
  locks walletIndex

/-- Result of one `updateState` call: the on-disk record afterwards, whether
the exclusive section is still held when the call returns (the `finally`
branch of `withLock` always releases it), and the propagated result. -/
structure UpdateOutcome where
  disk : Option BotState
  lockHeld : Bool
  result : Except String Unit
  deriving Repr

/-- Embeds `updateState` (`src/services/storage.ts`): inside the exclusive
section, re-load the on-disk record, apply the updater, and only then write
the full record back.  A failing updater (embedded as `Except.error`) reaches
no `writeFileSync`, so the disk is returned untouched; the `finally` in
`withLock` releases the exclusive section either way and the error
propagates. -/
def updateState (disk : Option BotState)
    (updater : BotState → Except String BotState) : UpdateOutcome :=
  match updater (loadState disk) with
  | .error e => { disk := disk, lockHeld := false, result := .error e }
  | .ok s' => { disk := some s', lockHeld := false, result := .ok () }

/-- The mutator that `executeTokenCreation` (`src/services/tokenCreator.ts`)
passes to `updateState` right after a successful create: increment
`tokensCreated`, stamp `lastCreatedAt`, and push one completed-token
record. -/
def commitMutator (tokenAddress : String) (metadata : PreparedToken)
    (now : ℚ) (walletIndex : ℕ) (s : BotState) : BotState :=
  { s with
    tokensCreated := s.tokensCreated + 1,
    lastCreatedAt := some now,
    createdTokens := s.createdTokens ++
      [{ tokenAddress := tokenAddress, metadata := metadata,
         createdAt := now, walletIndex := walletIndex }] }

/-- The progress-record invariant: the completed-token list is exactly as
long as the completed-token count. -/
def stateInvariant (s : BotState) : Prop :=
  s.createdTokens.length = s.tokensCreated

instance (s : BotState) : Decidable (stateInvariant s) := by
  unfold stateInvariant; infer_instance

/-- Loop body of `withRetry` (`src/services/tokenCreator.ts`).  `attempt` is
the 1-based attempt counter of the source's `for` loop and `fuel` the number
of loop iterations still to run (`maxRetries - attempt + 1`).  The operation
is embedded as `fn : ℕ → Except String α`, the outcome of the k-th
invocation.  Returns the overall result, the list of back-off delays slept
between attempts (in order), and how many times the operation was invoked. -/
def withRetryGo (fn : ℕ → Except String α) (taskName : String)
    (maxRetries retryDelay : ℕ) :
    ℕ → ℕ → Except String α × List ℕ × ℕ
  | _, 0 =>
      (.error (taskName ++ " failed after " ++ toString maxRetries
        ++ " attempts"), [], 0)
  | attempt, fuel + 1 =>
      match fn attempt with
      | .ok v => (.ok v, [], 1)
      | .error e =>
          if fuel = 0 then
            (.error (taskName ++ " failed after " ++ toString maxRetries
              ++ " attempts: " ++ e), [], 1)
          else
            let rest :=
              withRetryGo fn taskName maxRetries retryDelay (attempt + 1) fuel
            (rest.1, retryDelay * attempt :: rest.2.1, rest.2.2 + 1)

/-- Embeds `withRetry` (`src/services/tokenCreator.ts`): up to `maxRetries`
attempts, linear back-off of `retryDelay * attempt` after each failed
non-final attempt, and a wrapping error carrying the task name, the attempt
count, and the last underlying error's message when every attempt failed. -/
def withRetry (fn : ℕ → Except String α) (taskName : String)
    (maxRetries retryDelay : ℕ) : Except String α × List ℕ × ℕ :=
  withRetryGo fn taskName maxRetries retryDelay 1 maxRetries

/-- Execution mode (`config.executionMode`). -/
inductive ExecMode
  | parallel
  | sequential
  deriving Repr, DecidableEq

/-- A generated token-creation task (`TokenTask` in the scheduler).  The
`metadata` field embeds `metadata[randomMetadataIndex]!`, which in JavaScript
silently yields `undefined` when the pool is empty; hence an `Option`. -/
structure TokenTask where
  tokenIndex : ℕ
  walletIndex : ℕ
  metadata : Option PreparedToken
  delayMs : ℚ
  scheduledTime : ℚ
  deriving Repr, DecidableEq, Inhabited

/-- Embeds `getRandomDelay`: `Math.floor(Math.random() * (max - min) + min)`
with `min = averageMs * (1 - randomness)` and
`max = averageMs * (1 + randomness)`; `rnd` is the `Math.random()` draw. -/
def getRandomDelay (averageMs randomness rnd : ℚ) : ℤ :=
  let lo := averageMs * (1 - randomness)
  let hi := averageMs * (1 + randomness)
  ⌊rnd * (hi - lo) + lo⌋

/-- Embeds `generateTasks` of `src/unnamed/part_002` (the scheduler variant
that draws i.i.d. uniform times in parallel mode).  The loop runs for
`0 ≤ i < totalTokens`, i.e. `totalTokens.toNat` iterations.  In parallel
mode, draw `i` of the stream is the i-th `Math.random()` for the time list
and draw `totalTokens.toNat + i` the metadata pick of task `i`; in
sequential mode, task `i` consumes draw `2*i` for its jittered delay (when
`delayRandomness > 0`) and the following draw for its metadata pick. -/
def generateTasks (totalTokens : ℤ) (durationMs : ℚ) (numWallets : ℕ)
    (metadata : List PreparedToken) (startTime : ℚ)
    (executionMode : ExecMode) (delayRandomness : ℚ) (rand : ℕ → ℚ) :
    List TokenTask :=
  let n := totalTokens.toNat
  let averageDelay := durationMs / (totalTokens : ℚ)
  match executionMode with
  | .parallel =>
      let randomTimes := (List.range n).map (fun i => rand i * durationMs)
      let sorted := randomTimes.mergeSort (fun a b => a ≤ b)
      (List.range n).map (fun i =>
        let randomMetadataIndex :=
          ⌊rand (n + i) * (metadata.length : ℚ)⌋.toNat
        { tokenIndex := i,
          walletIndex := i % numWallets,
          metadata := metadata[randomMetadataIndex]?,
          delayMs := sorted.getD i 0,
          scheduledTime := startTime + sorted.getD i 0 })
  | .sequential =>
      (List.range n).map (fun (i : ℕ) =>
        let baseDelay := (i : ℚ) * averageDelay
        let delay : ℚ := if 0 < delayRandomness
          then (getRandomDelay baseDelay delayRandomness (rand (2 * i)) : ℚ)
          else baseDelay
        let randomMetadataIndex :=
          ⌊rand (if 0 < delayRandomness then 2 * i + 1 else i)
            * (metadata.length : ℚ)⌋.toNat
        { tokenIndex := i,
          walletIndex := i % numWallets,
          metadata := metadata[randomMetadataIndex]?,
          delayMs := delay,
          scheduledTime := startTime + delay })

/-- One Fisher–Yates swap, `[tasks[i], tasks[j]] = [tasks[j]!, tasks[i]!]`
(`src/services/scheduler.ts`). -/
def listSwap (l : List α) (i j : ℕ) : List α :=
  match l[i]?, l[j]? with
  | some a, some b => (l.set i b).set j a
  | _, _ => l

/-- The shuffle loop of the `src/services/scheduler.ts` generator
(`for (let i = tasks.length - 1; i > 0; i--)`); `k` is the next index of the
randomness stream, the first argument the current loop counter `i`. -/
def shuffleGo (rand : ℕ → ℚ) : ℕ → ℕ → List α → List α
  | _, 0, l => l
  | k, i + 1, l =>
      let j := ⌊rand k * ((i + 1 : ℕ) + 1 : ℚ)⌋.toNat
      shuffleGo rand (k + 1) i (listSwap l (i + 1) j)

/-- Loop of the parallel branch of `generateTasks` in
`src/services/scheduler.ts`: random per-task delays accumulated into a
running `cumulativeTime`.  Iteration `i` consumes draw `2*i` for its delay
and draw `2*i + 1` for its metadata pick. -/
def cumGo (averageDelay delayRandomness : ℚ) (numWallets : ℕ)
    (metadata : List PreparedToken) (startTime : ℚ) (rand : ℕ → ℚ) :
    ℕ → ℕ → ℚ → List TokenTask
  | _, 0, _ => []
  | i, r + 1, cum =>
      let delay := (getRandomDelay averageDelay delayRandomness
        (rand (2 * i)) : ℚ)
      let cum' := cum + delay
      let randomMetadataIndex :=
        ⌊rand (2 * i + 1) * (metadata.length : ℚ)⌋.toNat
      { tokenIndex := i,
        walletIndex := i % numWallets,
        metadata := metadata[randomMetadataIndex]?,
        delayMs := cum',
        scheduledTime := startTime + cum' }
        :: cumGo averageDelay delayRandomness numWallets metadata startTime
             rand (i + 1) r cum'

/-- Embeds the parallel branch of `generateTasks` in
`src/services/scheduler.ts` (the cumulative-delay variant): accumulate
random delays around `averageDelay`, then Fisher–Yates-shuffle the task
list (the shuffle consumes the stream from index `2 * totalTokens.toNat`). -/
def generateTasksCum (totalTokens : ℤ) (durationMs : ℚ) (numWallets : ℕ)
    (metadata : List PreparedToken) (startTime : ℚ)
    (delayRandomness : ℚ) (rand : ℕ → ℚ) : List TokenTask :=
  let n := totalTokens.toNat
  let averageDelay := durationMs / (totalTokens : ℚ)
  let tasks := cumGo averageDelay delayRandomness numWallets metadata
    startTime rand 0 n 0
  shuffleGo rand (2 * n) (tasks.length - 1) tasks

/-- Scheduler configuration: the `config` fields `runScheduler` reads
(`durationMs` stands for `config.durationHours * 60 * 60 * 1000`, and
`numWallets` for `wallets.length` after deriving `numWallets + 1` wallets
and dropping the master). -/
structure SchedulerConfig where
  totalTokensToCreate : ℕ
  durationMs : ℚ
  numWallets : ℕ
  executionMode : ExecMode
  delayRandomness : ℚ
  deriving Repr, DecidableEq

/-- JavaScript truthiness test `!state.startTime`: true when the field is
absent or stored as `0`. -/
def startTimeFalsy : Option ℚ → Bool
  | none => true
  | some x => x == 0

/-- The `if (!state.startTime) state.startTime = Date.now()` step of
`runScheduler`. -/
def resolvedState (state : BotState) (now : ℚ) : BotState :=
  if startTimeFalsy state.startTime then { state with startTime := some now }
  else state

/-- Embeds the task-generation portion of `runScheduler`
(`src/unnamed/part_002`): fail when the metadata pool is empty, persist a
start time when the stored one is falsy, early-return (`none`) when
`remainingTokens === 0`, otherwise generate tasks for
`totalTokensToCreate - tokensCreated` anchored at the resolved start time. -/
def runScheduler (cfg : SchedulerConfig) (metadata : List PreparedToken)
    (state : BotState) (now : ℚ) (rand : ℕ → ℚ) :
    Except String (Option (List TokenTask) × BotState) :=
  if metadata.length = 0 then
    .error "No metadata available."
  else
    let state1 := resolvedState state now
    let startTime := state1.startTime.getD 0
    let remainingTokens : ℤ :=
      (cfg.totalTokensToCreate : ℤ) - (state.tokensCreated : ℤ)
    if remainingTokens = 0 then
      .ok (none, state1)
    else
      .ok (some (generateTasks remainingTokens cfg.durationMs cfg.numWallets
        metadata startTime cfg.executionMode cfg.delayRandomness rand),
        state1)

/-- Observable steps of `executeTokenCreation`, in execution order. -/
inductive WorkflowEvent
  | createOk
  | createFailed
  | stateUpdate
  | sellTry (attempt : ℕ)
  deriving Repr, DecidableEq

/-- Outcome of a successful `createToken` call (`src/services/contracts.ts`):
the token address and the amount of tokens received. -/
structure CreateOutcome where
  tokenAddress : String
  tokensReceived : ℤ
  deriving Repr, DecidableEq

/-- Embeds `executeTokenCreation` (`src/services/tokenCreator.ts`).  The
external collaborators are abstracted by their outcomes: `createRes` is the
result of the unretried `createToken` call and `sellRes k` the outcome of the
k-th `sellTokens` attempt inside `withRetry`.  Returns the trace of
observable steps, the on-disk state afterwards, and the overall result.  The
source updates the durable state immediately after a successful create and
only then runs the (retried) sell step when `sellPercentage > 0`. -/
def executeTokenCreation (createRes : Except String CreateOutcome)
    (sellRes : ℕ → Except String Unit) (sellPercentage : ℕ)
    (maxRetries retryDelay : ℕ) (metadata : PreparedToken)
    (walletIndex : ℕ) (now : ℚ) (disk : Option BotState) :
    List WorkflowEvent × Option BotState × Except String Unit :=
  match createRes with
  | .error e => ([.createFailed], disk, .error e)
  | .ok out =>
      let afterUpdate := (updateState disk (fun s =>
        .ok (commitMutator out.tokenAddress metadata now walletIndex s))).disk
      if 0 < sellPercentage then
        let sell := withRetry sellRes ("Sell tokens for " ++ metadata.symbol)
          maxRetries retryDelay
        ([.createOk, .stateUpdate]
           ++ (List.range sell.2.2).map (fun j => .sellTry (j + 1)),
         afterUpdate, sell.1)
      else
        ([.createOk, .stateUpdate], afterUpdate, .ok ())

/-! # Theorems -/

/-- C9: `tryAcquire` succeeds and marks the index busy iff it was free,
returns `false` leaving the table unchanged otherwise; `release` marks the
index free, is a no-op on an already-free index, and re-enables a subsequent
`tryAcquire`. -/
theorem lock_manager_contract (locks : LockTable) (i : ℕ) :
    ((tryAcquire locks i).1 = true ↔ locks i = false) ∧
    ((tryAcquire locks i).1 = true → (tryAcquire locks i).2 i = true) ∧
    (locks i = true → tryAcquire locks i = (false, locks)) ∧
    (release locks i i = false) ∧
    (locks i = false → release locks i = locks) ∧
    ((tryAcquire (release locks i) i).1 = true) := by
  refine ⟨?_, ?_, ?_, ?_, ?_, ?_⟩
  · constructor
    · intro h
      by_contra hne
      have hl : locks i = true := by
        cases hcase : locks i
        · exact absurd hcase hne
        · rfl
      simp [tryAcquire, hl] at h
    · intro h
      simp [tryAcquire, h]
  · intro h
    cases hcase : locks i
    · simp [tryAcquire, hcase]
    · simp [tryAcquire, hcase] at h
  · intro h
    simp [tryAcquire, h]
  · simp [release]
  · intro h
    funext j
    by_cases hj : j = i
    · simp [release, hj, h]
    · simp [release, hj]
  · simp [tryAcquire, release]

/-- Witness for C9 at a concrete table (wallet 0 locked, all others free):
checks the conditional parts of the contract at indices 0 and 1. -/
theorem lock_manager_contract_witness :
    (tryAcquire (fun j => decide (j = 0)) 0 = (false, fun j => decide (j = 0))) ∧
    (release (fun j => decide (j = 0)) 1 = fun j => decide (j = 0)) := by
  have h0 := lock_manager_contract (fun j => decide (j = 0)) 0
  have h1 := lock_manager_contract (fun j => decide (j = 0)) 1
  exact ⟨h0.2.2.1 (by decide), h1.2.2.2.2.1 (by decide)⟩

/-- C3: when the mutator raises, no write occurs — the on-disk record after
the failed `updateState` call equals the record before it — the error
propagates to the caller, and the exclusive section is released. -/
theorem updateState_mutator_error_no_write
    (disk : Option BotState) (updater : BotState → Except String BotState)
    (e : String) (h : updater (loadState disk) = .error e) :
    (updateState disk updater).disk = disk ∧
    (updateState disk updater).lockHeld = false ∧
    (updateState disk updater).result = .error e := by
  simp [updateState, h]

/-- Witness for C3: a mutator that always raises, run against an empty disk,
leaves the disk empty and propagates its error with the lock released. -/
theorem updateState_mutator_error_no_write_witness :
    (updateState none (fun _ => .error "mutator failed")).disk = none ∧
    (updateState none (fun _ => .error "mutator failed")).lockHeld = false ∧
    (updateState none (fun _ => .error "mutator failed")).result
      = .error "mutator failed" :=
  updateState_mutator_error_no_write none (fun _ => .error "mutator failed")
    "mutator failed" rfl

/-- C4: the invariant `createdTokens.length = tokensCreated` holds for the
empty record returned when no on-disk record exists, and every committed
update performed by the job-completion path — which increments the count by
one and appends exactly one record — preserves it: if the loaded record
satisfies the invariant, the record the commit writes to disk satisfies it
too. -/
theorem invariant_holds_after_commit
    (tokenAddress : String) (metadata : PreparedToken) (now : ℚ)
    (walletIndex : ℕ) (disk : Option BotState)
    (h : stateInvariant (loadState disk)) :
    stateInvariant emptyState ∧
    (updateState disk
        (fun s => .ok (commitMutator tokenAddress metadata now walletIndex s))).disk
      = some (commitMutator tokenAddress metadata now walletIndex (loadState disk)) ∧
    stateInvariant
      (commitMutator tokenAddress metadata now walletIndex (loadState disk)) := by
  refine ⟨by simp [stateInvariant, emptyState], by simp [updateState], ?_⟩
  simp only [stateInvariant, commitMutator, List.length_append,
    List.length_cons, List.length_nil] at h ⊢
  omega

/-- Witness for C4 at a concrete commit against an empty disk. -/
theorem invariant_holds_after_commit_witness :
    stateInvariant emptyState ∧
    (updateState none
        (fun s => .ok (commitMutator "0xabc"
          { name := "Tok", symbol := "TOK", tokenURI := "uri" } 5 2 s))).disk
      = some (commitMutator "0xabc"
          { name := "Tok", symbol := "TOK", tokenURI := "uri" } 5 2
          (loadState none)) ∧
    stateInvariant (commitMutator "0xabc"
      { name := "Tok", symbol := "TOK", tokenURI := "uri" } 5 2
      (loadState none)) :=
  invariant_holds_after_commit "0xabc"
    { name := "Tok", symbol := "TOK", tokenURI := "uri" } 5 2 none (by decide)

/-- The invocation count of the retry loop never exceeds its fuel. -/
theorem withRetryGo_invocations_le (fn : ℕ → Except String α)
    (taskName : String) (maxRetries retryDelay : ℕ) :
    ∀ fuel attempt,
      (withRetryGo fn taskName maxRetries retryDelay attempt fuel).2.2 ≤ fuel := by
  intro fuel
  induction fuel with
  | zero => intro attempt; simp [withRetryGo]
  | succ f ih =>
      intro attempt
      simp only [withRetryGo]
      cases fn attempt with
      | ok v => simp
      | error e =>
          by_cases hf : f = 0
          · simp [hf]
          · simpa [hf] using Nat.succ_le_succ (ih (attempt + 1))

/-- If the first `i` attempts starting at `attempt` fail and attempt
`attempt + i` succeeds within the fuel, the loop returns that success after
exactly `i + 1` invocations, having slept the linear back-off delays. -/
theorem withRetryGo_success (fn : ℕ → Except String α) (taskName : String)
    (maxRetries retryDelay : ℕ) :
    ∀ i attempt fuel v,
      (∀ j, attempt ≤ j → j < attempt + i → ∃ e, fn j = .error e) →
      fn (attempt + i) = .ok v → i < fuel →
      withRetryGo fn taskName maxRetries retryDelay attempt fuel
        = (.ok v, (List.range i).map (fun j => retryDelay * (attempt + j)),
           i + 1) := by
  intro i
  induction i with
  | zero =>
      intro attempt fuel v _ hok hfuel
      obtain ⟨f, rfl⟩ := Nat.exists_eq_add_of_lt hfuel
      simp only [Nat.add_zero] at hok
      simp [withRetryGo, hok]
  | succ i ih =>
      intro attempt fuel v hfail hok hfuel
      obtain ⟨e, he⟩ := hfail attempt le_rfl (by omega)
      obtain ⟨f, rfl⟩ := Nat.exists_eq_add_of_lt hfuel
      have hok' : fn (attempt + 1 + i) = .ok v := by
        rw [Nat.add_assoc, Nat.add_comm 1 i]; exact hok
      have hrec := ih (attempt + 1) (i + 1 + f) v
        (fun j hj1 hj2 => hfail j (by omega) (by omega)) hok' (by omega)
      have hne : i + 1 + f ≠ 0 := by omega
      simp only [withRetryGo, he, if_neg hne, hrec]
      rw [List.range_succ_eq_map, List.map_cons, List.map_map]
      have hfun : ((fun j => retryDelay * (attempt + j)) ∘ Nat.succ)
          = (fun j => retryDelay * (attempt + 1 + j)) := by
        funext j
        simp only [Function.comp_apply, Nat.succ_eq_add_one]
        ring
      rw [hfun]
      simp

/-- One unfolding step of the retry loop on a failing non-final attempt. -/
theorem withRetryGo_error_step (fn : ℕ → Except String α) (taskName : String)
    (maxRetries retryDelay attempt fuel : ℕ) (e : String)
    (he : fn attempt = .error e) (hne : fuel ≠ 0) :
    withRetryGo fn taskName maxRetries retryDelay attempt (fuel + 1)
      = ((withRetryGo fn taskName maxRetries retryDelay (attempt + 1) fuel).1,
         retryDelay * attempt
           :: (withRetryGo fn taskName maxRetries retryDelay (attempt + 1) fuel).2.1,
         (withRetryGo fn taskName maxRetries retryDelay (attempt + 1) fuel).2.2 + 1) := by
  simp only [withRetryGo, he, if_neg hne]

/-- If every attempt within the fuel fails, the loop returns the wrapping
error built from the last attempt's message after exactly `fuel`
invocations. -/
theorem withRetryGo_exhausted (fn : ℕ → Except String α) (taskName : String)
    (maxRetries retryDelay : ℕ) (errf : ℕ → String) :
    ∀ fuel attempt, 1 ≤ fuel →
      (∀ j, attempt ≤ j → j < attempt + fuel → fn j = .error (errf j)) →
      withRetryGo fn taskName maxRetries retryDelay attempt fuel
        = (.error (taskName ++ " failed after " ++ toString maxRetries
            ++ " attempts: " ++ errf (attempt + fuel - 1)),
           (List.range (fuel - 1)).map (fun j => retryDelay * (attempt + j)),
           fuel) := by
  intro fuel
  induction fuel with
  | zero => intro attempt h; omega
  | succ f ih =>
      intro attempt _ hfail
      have he := hfail attempt le_rfl (by omega)
      by_cases hf : f = 0
      · subst hf
        simp [withRetryGo, he]
      · obtain ⟨m, rfl⟩ : ∃ m, f = m + 1 := ⟨f - 1, by omega⟩
        have hne : m + 1 ≠ 0 := by omega
        have hrec := ih (attempt + 1) (by omega)
          (fun j hj1 hj2 => hfail j (by omega) (by omega))
        rw [withRetryGo_error_step fn taskName maxRetries retryDelay attempt
          (m + 1) (errf attempt) he hne, hrec]
        have e1 : attempt + 1 + (m + 1) - 1 = attempt + (m + 1 + 1) - 1 := by
          omega
        have e2 : m + 1 - 1 = m := by omega
        have e3 : m + 1 + 1 - 1 = m + 1 := by omega
        simp only [e1, e2, e3]
        rw [List.range_succ_eq_map, List.map_cons, List.map_map]
        have hfun : ((fun j => retryDelay * (attempt + j)) ∘ Nat.succ)
            = (fun j => retryDelay * (attempt + 1 + j)) := by
          funext j
          simp only [Function.comp_apply, Nat.succ_eq_add_one]
          ring
        rw [hfun]
        simp

/-- The generator always returns one task per loop iteration:
`totalTokens.toNat` of them, in either mode. -/
theorem generateTasks_length (totalTokens : ℤ) (durationMs : ℚ)
    (numWallets : ℕ) (metadata : List PreparedToken) (startTime : ℚ)
    (mode : ExecMode) (dr : ℚ) (rand : ℕ → ℚ) :
    (generateTasks totalTokens durationMs numWallets metadata startTime mode
      dr rand).length = totalTokens.toNat := by
  cases mode <;> simp [generateTasks]

/-- With a non-positive token count the generation loops run zero times. -/
theorem generateTasks_of_nonpos (totalTokens : ℤ) (durationMs : ℚ)
    (numWallets : ℕ) (metadata : List PreparedToken) (startTime : ℚ)
    (mode : ExecMode) (dr : ℚ) (rand : ℕ → ℚ) (h : totalTokens ≤ 0) :
    generateTasks totalTokens durationMs numWallets metadata startTime mode
      dr rand = [] := by
  have h0 : totalTokens.toNat = 0 := Int.toNat_of_nonpos h
  cases mode <;> simp [generateTasks, h0]

/-- C8: for valid inputs and in both modes, the generator returns exactly
`totalTokens` tasks, and the task at position `i` carries sequence index `i`
and wallet index `i % numWallets`, which lies in `[0, numWallets)`. -/
theorem generate_count_round_robin (totalTokens : ℤ) (durationMs : ℚ)
    (numWallets : ℕ) (metadata : List PreparedToken) (startTime : ℚ)
    (mode : ExecMode) (dr : ℚ) (rand : ℕ → ℚ)
    (_h1 : 1 ≤ totalTokens) (h2 : 1 ≤ numWallets) (_h3 : metadata ≠ []) :
    (generateTasks totalTokens durationMs numWallets metadata startTime mode
      dr rand).length = totalTokens.toNat ∧
    ∀ (i : ℕ) (hi : i < (generateTasks totalTokens durationMs numWallets
        metadata startTime mode dr rand).length),
      (generateTasks totalTokens durationMs numWallets metadata startTime mode
        dr rand)[i].tokenIndex = i ∧
      (generateTasks totalTokens durationMs numWallets metadata startTime mode
        dr rand)[i].walletIndex = i % numWallets ∧
      i % numWallets < numWallets := by
  refine ⟨generateTasks_length _ _ _ _ _ _ _ _, ?_⟩
  intro i hi
  have hmod : i % numWallets < numWallets := Nat.mod_lt _ (by omega)
  cases mode <;>
    simp [generateTasks, List.getElem_map, List.getElem_range, hmod]

/-- Witness for C8 at a concrete generation (3 tasks over 2 wallets). -/
theorem generate_count_round_robin_witness :
    (generateTasks 3 1000 2 [{ name := "A", symbol := "A", tokenURI := "u" }]
      0 ExecMode.sequential 0 (fun _ => 0)).length = (3 : ℤ).toNat ∧
    ∀ (i : ℕ) (hi : i < (generateTasks 3 1000 2
        [{ name := "A", symbol := "A", tokenURI := "u" }]
        0 ExecMode.sequential 0 (fun _ => 0)).length),
      (generateTasks 3 1000 2 [{ name := "A", symbol := "A", tokenURI := "u" }]
        0 ExecMode.sequential 0 (fun _ => 0))[i].tokenIndex = i ∧
      (generateTasks 3 1000 2 [{ name := "A", symbol := "A", tokenURI := "u" }]
        0 ExecMode.sequential 0 (fun _ => 0))[i].walletIndex = i % 2 ∧
      i % 2 < 2 :=
  generate_count_round_robin 3 1000 2
    [{ name := "A", symbol := "A", tokenURI := "u" }] 0 ExecMode.sequential 0
    (fun _ => 0) (by norm_num) (by norm_num) (List.cons_ne_nil _ _)

/-- C10: a non-positive token count makes the generator return the empty
task list (no error), and a progress record whose completed count exceeds
the configured total slips past the `remainingTokens === 0` early return yet
still dispatches no tasks, because the negative-count generation is empty. -/
theorem overshoot_generates_empty (totalTokens : ℤ) (durationMs : ℚ)
    (numWallets : ℕ) (metadata : List PreparedToken) (startTime : ℚ)
    (mode : ExecMode) (dr : ℚ) (rand : ℕ → ℚ) (h : totalTokens ≤ 0)
    (cfg : SchedulerConfig) (state : BotState) (now : ℚ)
    (hover : (cfg.totalTokensToCreate : ℤ) < (state.tokensCreated : ℤ)) :
    generateTasks totalTokens durationMs numWallets metadata startTime mode
      dr rand = [] ∧
    (metadata ≠ [] →
      runScheduler cfg metadata state now rand
        = .ok (some [], resolvedState state now)) := by
  refine ⟨generateTasks_of_nonpos _ _ _ _ _ _ _ _ h, ?_⟩
  intro hmd
  have hmdlen : ¬ metadata.length = 0 := by
    simpa [List.length_eq_zero] using hmd
  have hne : (cfg.totalTokensToCreate : ℤ) - (state.tokensCreated : ℤ) ≠ 0 := by
    omega
  have hempty := generateTasks_of_nonpos
    ((cfg.totalTokensToCreate : ℤ) - (state.tokensCreated : ℤ))
    cfg.durationMs cfg.numWallets metadata
    ((resolvedState state now).startTime.getD 0)
    cfg.executionMode cfg.delayRandomness rand (by omega)
  simp [runScheduler, hmdlen, hne, hempty]

/-- Witness for C10: the generator conjunct exercised on an empty job pool,
and the scheduler conjunct with configured total 3, already 5 completed. -/
theorem overshoot_generates_empty_witness :
    generateTasks (-2) 1000 2 [] 0 ExecMode.sequential 0 (fun _ => 0) = [] ∧
    runScheduler
      { totalTokensToCreate := 3, durationMs := 1000, numWallets := 2,
        executionMode := ExecMode.sequential, delayRandomness := 0 }
      [{ name := "A", symbol := "A", tokenURI := "u" }]
      { tokensCreated := 5, startTime := some 100, lastCreatedAt := none,
        createdTokens := [] } 999 (fun _ => 0)
      = .ok (some [], resolvedState
          { tokensCreated := 5, startTime := some 100, lastCreatedAt := none,
            createdTokens := [] } 999) :=
  ⟨(overshoot_generates_empty (-2) 1000 2 [] 0 ExecMode.sequential 0
      (fun _ => 0) (by norm_num)
      { totalTokensToCreate := 3, durationMs := 1000, numWallets := 2,
        executionMode := ExecMode.sequential, delayRandomness := 0 }
      { tokensCreated := 5, startTime := some 100, lastCreatedAt := none,
        createdTokens := [] } 999 (by norm_num)).1,
   (overshoot_generates_empty (-2) 1000 2
      [{ name := "A", symbol := "A", tokenURI := "u" }] 0
      ExecMode.sequential 0 (fun _ => 0) (by norm_num)
      { totalTokensToCreate := 3, durationMs := 1000, numWallets := 2,
        executionMode := ExecMode.sequential, delayRandomness := 0 }
      { tokensCreated := 5, startTime := some 100, lastCreatedAt := none,
        createdTokens := [] } 999 (by norm_num)).2
      (List.cons_ne_nil _ _)⟩

/-- C2 counterexample: the generator performs no input validation.  Called
with `remainingCount = 0` it returns the empty task list instead of failing
with `InvalidScheduleInput`, and called with an empty job pool it happily
returns tasks (whose metadata references are `undefined`). -/
theorem generate_no_validation_counterexample :
    generateTasks 0 3600000 1 [{ name := "A", symbol := "A", tokenURI := "u" }]
      0 ExecMode.parallel 0 (fun _ => 0) = [] ∧
    (generateTasks 3 3600000 1 [] 0 ExecMode.sequential 0
      (fun _ => 0)).length = 3 := by
  constructor
  · rfl
  · rfl

/-- C2 amended: the generator validates nothing and cannot fail: for
`remainingCount < 1` it returns the empty list, and on every input it
returns a list of exactly `max(remainingCount, 0)` tasks. -/
theorem generate_never_fails (totalTokens : ℤ) (durationMs : ℚ)
    (numWallets : ℕ) (metadata : List PreparedToken) (startTime : ℚ)
    (mode : ExecMode) (dr : ℚ) (rand : ℕ → ℚ) :
    (totalTokens < 1 →
      generateTasks totalTokens durationMs numWallets metadata startTime mode
        dr rand = []) ∧
    (generateTasks totalTokens durationMs numWallets metadata startTime mode
      dr rand).length = totalTokens.toNat := by
  exact ⟨fun h => generateTasks_of_nonpos _ _ _ _ _ _ _ _ (by omega),
    generateTasks_length _ _ _ _ _ _ _ _⟩

/-- Witness for C2's amended statement at `remainingCount = 0` with an empty
job pool. -/
theorem generate_never_fails_witness :
    generateTasks 0 3600000 1 [] 0 ExecMode.sequential (1/2) (fun _ => 0)
      = [] ∧
    (generateTasks 0 3600000 1 [] 0 ExecMode.sequential (1/2)
      (fun _ => 0)).length = (0 : ℤ).toNat :=
  ⟨(generate_never_fails 0 3600000 1 [] 0 ExecMode.sequential (1/2)
      (fun _ => 0)).1 (by norm_num),
   (generate_never_fails 0 3600000 1 [] 0 ExecMode.sequential (1/2)
      (fun _ => 0)).2⟩

/-- C7 amended: in the i.i.d.-uniform concurrent generator
(`src/unnamed/part_002`), when `durationMs > 0` and every randomness draw
lies in `[0, 1)`, every task's offset lies in `[0, durationMs)` and its
scheduled time in `[startTime, startTime + durationMs)`. -/
theorem parallel_offsets_in_range (totalTokens : ℤ) (durationMs : ℚ)
    (numWallets : ℕ) (metadata : List PreparedToken) (startTime : ℚ)
    (dr : ℚ) (rand : ℕ → ℚ) (hd : 0 < durationMs)
    (hr : ∀ j, 0 ≤ rand j ∧ rand j < 1) :
    ∀ t ∈ generateTasks totalTokens durationMs numWallets metadata startTime
        ExecMode.parallel dr rand,
      0 ≤ t.delayMs ∧ t.delayMs < durationMs ∧
      startTime ≤ t.scheduledTime ∧
      t.scheduledTime < startTime + durationMs := by
  intro t ht
  simp only [generateTasks, List.mem_map, List.mem_range] at ht
  obtain ⟨i, hi, rfl⟩ := ht
  set sorted := (((List.range totalTokens.toNat).map
    (fun k => rand k * durationMs)).mergeSort (fun a b => a ≤ b)) with hsorted
  have hlen : sorted.length = totalTokens.toNat := by
    rw [hsorted, List.length_mergeSort, List.length_map, List.length_range]
  have hilen : i < sorted.length := by omega
  have hmem : sorted.getD i 0 ∈ sorted := by
    rw [List.getD_eq_getElem sorted 0 hilen]
    exact List.getElem_mem _
  have hmem' : sorted.getD i 0
      ∈ (List.range totalTokens.toNat).map (fun k => rand k * durationMs) := by
    rw [hsorted] at hmem
    exact List.mem_mergeSort.mp hmem
  obtain ⟨k, _, hval⟩ := List.mem_map.mp hmem'
  obtain ⟨hr0, hr1⟩ := hr k
  have hlow : 0 ≤ sorted.getD i 0 := by
    rw [← hval]; exact mul_nonneg hr0 (le_of_lt hd)
  have hhigh : sorted.getD i 0 < durationMs := by
    rw [← hval]
    calc rand k * durationMs < 1 * durationMs :=
          mul_lt_mul_of_pos_right hr1 hd
      _ = durationMs := one_mul _
  refine ⟨hlow, hhigh, ?_, ?_⟩
  · show startTime ≤ startTime + sorted.getD i 0
    linarith
  · show startTime + sorted.getD i 0 < startTime + durationMs
    linarith

/-- Witness for C7's amended statement: the first of two concretely
generated tasks obeys the offset bounds. -/
theorem parallel_offsets_in_range_witness :
    0 ≤ ((generateTasks 2 100 1
        [{ name := "A", symbol := "A", tokenURI := "u" }] 50
        ExecMode.parallel 0 (fun _ => 1/2)).getD 0 default).delayMs ∧
    ((generateTasks 2 100 1 [{ name := "A", symbol := "A", tokenURI := "u" }]
        50 ExecMode.parallel 0 (fun _ => 1/2)).getD 0 default).delayMs
      < 100 ∧
    (50 : ℚ) ≤ ((generateTasks 2 100 1
        [{ name := "A", symbol := "A", tokenURI := "u" }] 50
        ExecMode.parallel 0 (fun _ => 1/2)).getD 0 default).scheduledTime ∧
    ((generateTasks 2 100 1 [{ name := "A", symbol := "A", tokenURI := "u" }]
        50 ExecMode.parallel 0 (fun _ => 1/2)).getD 0 default).scheduledTime
      < 50 + 100 := by
  have hlen : (generateTasks 2 100 1
      [{ name := "A", symbol := "A", tokenURI := "u" }] 50
      ExecMode.parallel 0 (fun _ => 1/2)).length = (2 : ℤ).toNat :=
    generateTasks_length 2 100 1
      [{ name := "A", symbol := "A", tokenURI := "u" }] 50 ExecMode.parallel 0
      (fun _ => 1/2)
  have hmem : (generateTasks 2 100 1
        [{ name := "A", symbol := "A", tokenURI := "u" }] 50
        ExecMode.parallel 0 (fun _ => 1/2)).getD 0 default
      ∈ generateTasks 2 100 1 [{ name := "A", symbol := "A", tokenURI := "u" }]
        50 ExecMode.parallel 0 (fun _ => 1/2) := by
    rw [List.getD_eq_getElem _ default (by rw [hlen]; norm_num)]
    exact List.getElem_mem _
  exact parallel_offsets_in_range 2 100 1
    [{ name := "A", symbol := "A", tokenURI := "u" }] 50 0 (fun _ => 1/2)
    (by norm_num) (fun j => by norm_num) _ hmem

/-- C7 counterexample: the cumulative-delay concurrent generator
(`src/services/scheduler.ts`) produces an offset equal to `durationMs`,
outside `[0, durationMs)`: two tasks over 100 ms with zero jitter get
offsets 100 and 50 (after the shuffle). -/
theorem parallel_offsets_counterexample :
    ((generateTasksCum 2 100 1 [{ name := "A", symbol := "A", tokenURI := "u" }]
        0 0 (fun _ => 0)).map (fun t => t.delayMs) = [100, 50]) ∧
    ¬ ((100 : ℚ) < 100) := by
  constructor
  · norm_num [generateTasksCum, cumGo, shuffleGo, listSwap, getRandomDelay]
  · norm_num

/-- C6: for `maxRetries ≥ 1`, `withRetry` invokes the operation at most
`maxRetries` times; on success at attempt `k` it returns the operation's
value with no further delay, having slept `retryDelay * attemptNumber`
(attempts numbered from 1) between consecutive attempts; if every attempt
fails, it fails with an error carrying the task name, the attempt count, and
the last underlying error's message. -/
theorem withRetry_contract (fn : ℕ → Except String α) (taskName : String)
    (maxRetries retryDelay : ℕ) (hmax : 1 ≤ maxRetries) :
    ((withRetry fn taskName maxRetries retryDelay).2.2 ≤ maxRetries) ∧
    (∀ k v, 1 ≤ k → k ≤ maxRetries →
      (∀ j, 1 ≤ j → j < k → ∃ e, fn j = .error e) → fn k = .ok v →
      withRetry fn taskName maxRetries retryDelay
        = (.ok v, (List.range (k - 1)).map (fun j => retryDelay * (1 + j)), k)) ∧
    (∀ errf : ℕ → String,
      (∀ j, 1 ≤ j → j ≤ maxRetries → fn j = .error (errf j)) →
      withRetry fn taskName maxRetries retryDelay
        = (.error (taskName ++ " failed after " ++ toString maxRetries
            ++ " attempts: " ++ errf maxRetries),
           (List.range (maxRetries - 1)).map (fun j => retryDelay * (1 + j)),
           maxRetries)) := by
  refine ⟨withRetryGo_invocations_le fn taskName maxRetries retryDelay
    maxRetries 1, ?_, ?_⟩
  · intro k v hk1 hk2 hfail hok
    have hk : 1 + (k - 1) = k := by omega
    have h := withRetryGo_success fn taskName maxRetries retryDelay (k - 1) 1
      maxRetries v
      (fun j hj1 hj2 => hfail j hj1 (by omega))
      (by rw [hk]; exact hok) (by omega)
    have hk' : k - 1 + 1 = k := by omega
    rw [withRetry, h, hk']
  · intro errf hfail
    have h := withRetryGo_exhausted fn taskName maxRetries retryDelay errf
      maxRetries 1 hmax (fun j hj1 hj2 => hfail j hj1 (by omega))
    have e1 : 1 + maxRetries - 1 = maxRetries := by omega
    rw [withRetry, h, e1]

/-- Witness for C6 with `maxRetries = 3`, `retryDelay = 10`: an operation
failing twice then succeeding returns the success value after delays 10 and
20; an always-failing operation fails with the wrapping message carrying the
last underlying error. -/
theorem withRetry_contract_witness :
    withRetry (fun k => if k = 3 then Except.ok 42
        else .error ("err" ++ toString k)) "sellA" 3 10
      = (.ok 42, [10, 20], 3) ∧
    withRetry (fun _ => (.error "boom" : Except String ℕ)) "sellB" 3 10
      = (.error ("sellB failed after 3 attempts: boom"), [10, 20], 3) := by
  constructor
  · have h := (withRetry_contract
      (fun k => if k = 3 then Except.ok 42 else .error ("err" ++ toString k))
      "sellA" 3 10 (by norm_num)).2.1 3 42 (by norm_num) (by norm_num)
      (by intro j h1 h2; interval_cases j <;> exact ⟨_, rfl⟩) rfl
    exact h.trans (by rfl)
  · have h := (withRetry_contract (fun _ => (.error "boom" : Except String ℕ))
      "sellB" 3 10 (by norm_num)).2.2 (fun _ => "boom") (fun j _ _ => rfl)
    exact h.trans (by rfl)

/-- C5 counterexample: a stored start timestamp of `0` is present but falsy,
so `runScheduler` overwrites it with `now` instead of preserving it — the
generated schedule is anchored at `now = 1000`, not at the stored `0`. -/
theorem scheduler_start_time_counterexample :
    runScheduler
      { totalTokensToCreate := 5, durationMs := 1000, numWallets := 2,
        executionMode := ExecMode.sequential, delayRandomness := 0 }
      [{ name := "A", symbol := "A", tokenURI := "u" }]
      { tokensCreated := 3, startTime := some 0, lastCreatedAt := none,
        createdTokens := [] }
      1000 (fun _ => 0)
      = .ok (some
          [{ tokenIndex := 0, walletIndex := 0,
             metadata := some { name := "A", symbol := "A", tokenURI := "u" },
             delayMs := 0, scheduledTime := 1000 },
           { tokenIndex := 1, walletIndex := 1,
             metadata := some { name := "A", symbol := "A", tokenURI := "u" },
             delayMs := 500, scheduledTime := 1500 }],
          { tokensCreated := 3, startTime := some 1000, lastCreatedAt := none,
            createdTokens := [] }) ∧
    some (1000 : ℚ) ≠ some (0 : ℚ) := by
  constructor
  · norm_num [runScheduler, resolvedState, startTimeFalsy, generateTasks,
      show List.range (Int.toNat 2) = [0, 1] from rfl]
  · simp

/-- C5 amended: on start, with a non-empty metadata pool, the scheduler
computes `remaining = totalTokensToCreate - tokensCreated`; when that is 0
it returns immediately with no tasks; otherwise it generates a schedule of
exactly `remaining` tasks anchored at the resolved start time, and the
stored start timestamp is overwritten only when it is absent or stored as a
falsy `0` — a present non-zero start time is preserved. -/
theorem scheduler_resume_semantics (cfg : SchedulerConfig)
    (metadata : List PreparedToken) (state : BotState) (now : ℚ)
    (rand : ℕ → ℚ) (hmd : metadata ≠ []) :
    ((cfg.totalTokensToCreate : ℤ) - (state.tokensCreated : ℤ) = 0 →
      runScheduler cfg metadata state now rand
        = .ok (none, resolvedState state now)) ∧
    ((cfg.totalTokensToCreate : ℤ) - (state.tokensCreated : ℤ) ≠ 0 →
      runScheduler cfg metadata state now rand
        = .ok (some (generateTasks
            ((cfg.totalTokensToCreate : ℤ) - (state.tokensCreated : ℤ))
            cfg.durationMs cfg.numWallets metadata
            ((resolvedState state now).startTime.getD 0)
            cfg.executionMode cfg.delayRandomness rand),
          resolvedState state now) ∧
      (generateTasks ((cfg.totalTokensToCreate : ℤ) - (state.tokensCreated : ℤ))
          cfg.durationMs cfg.numWallets metadata
          ((resolvedState state now).startTime.getD 0)
          cfg.executionMode cfg.delayRandomness rand).length
        = ((cfg.totalTokensToCreate : ℤ) - (state.tokensCreated : ℤ)).toNat) ∧
    (∀ t : ℚ, state.startTime = some t → t ≠ 0 →
      resolvedState state now = state) := by
  have hmdlen : ¬ metadata.length = 0 := by
    simpa [List.length_eq_zero] using hmd
  refine ⟨?_, ?_, ?_⟩
  · intro h
    simp [runScheduler, hmdlen, h]
  · intro h
    exact ⟨by simp [runScheduler, hmdlen, h],
      generateTasks_length _ _ _ _ _ _ _ _⟩
  · intro t ht hne
    simp [resolvedState, startTimeFalsy, ht, hne]

/-- Witness for C5: the claim's own instance — 5 configured, 3 completed,
start time preserved, exactly 2 tasks generated — plus the zero-remaining
early return. -/
theorem scheduler_resume_semantics_witness :
    resolvedState
      { tokensCreated := 3, startTime := some 100, lastCreatedAt := none,
        createdTokens := [] } 999
      = { tokensCreated := 3, startTime := some 100, lastCreatedAt := none,
          createdTokens := [] } ∧
    (generateTasks 2 1000 2 [{ name := "A", symbol := "A", tokenURI := "u" }]
      100 ExecMode.sequential 0 (fun _ => 0)).length = 2 ∧
    runScheduler
      { totalTokensToCreate := 3, durationMs := 1000, numWallets := 2,
        executionMode := ExecMode.sequential, delayRandomness := 0 }
      [{ name := "A", symbol := "A", tokenURI := "u" }]
      { tokensCreated := 3, startTime := some 100, lastCreatedAt := none,
        createdTokens := [] } 999 (fun _ => 0)
      = .ok (none,
          { tokensCreated := 3, startTime := some 100, lastCreatedAt := none,
            createdTokens := [] }) := by
  have h5 := scheduler_resume_semantics
    { totalTokensToCreate := 5, durationMs := 1000, numWallets := 2,
      executionMode := ExecMode.sequential, delayRandomness := 0 }
    [{ name := "A", symbol := "A", tokenURI := "u" }]
    { tokensCreated := 3, startTime := some 100, lastCreatedAt := none,
      createdTokens := [] } 999 (fun _ => 0) (List.cons_ne_nil _ _)
  have h3 := scheduler_resume_semantics
    { totalTokensToCreate := 3, durationMs := 1000, numWallets := 2,
      executionMode := ExecMode.sequential, delayRandomness := 0 }
    [{ name := "A", symbol := "A", tokenURI := "u" }]
    { tokensCreated := 3, startTime := some 100, lastCreatedAt := none,
      createdTokens := [] } 999 (fun _ => 0) (List.cons_ne_nil _ _)
  have hres : resolvedState
      { tokensCreated := 3, startTime := some 100, lastCreatedAt := none,
        createdTokens := [] } 999
      = { tokensCreated := 3, startTime := some 100, lastCreatedAt := none,
          createdTokens := [] } :=
    h5.2.2 100 rfl (by norm_num)
  refine ⟨hres, ?_, ?_⟩
  · have hlen := (h5.2.1 (by norm_num)).2
    rw [hres] at hlen
    simpa using hlen
  · have h0 := h3.1 (by norm_num)
    rw [hres] at h0
    exact h0

/-- C1 counterexample: with a non-zero sell fraction and a sell step that
fails every attempt, the workflow result is an error — the sell step never
succeeded — yet the durable progress record has already been updated: the
persist happens right after the create step, before the sell step. -/
theorem update_persisted_before_sell_counterexample :
    executeTokenCreation
      (.ok { tokenAddress := "0xT", tokensReceived := 1000 })
      (fun _ => .error "sell reverted") 50 3 5
      { name := "A", symbol := "TOK", tokenURI := "u" } 1 99 none
      = ([.createOk, .stateUpdate, .sellTry 1, .sellTry 2, .sellTry 3],
         some { tokensCreated := 1, startTime := none,
                lastCreatedAt := some 99,
                createdTokens := [{ tokenAddress := "0xT",
                                    metadata := { name := "A", symbol := "TOK",
                                                  tokenURI := "u" },
                                    createdAt := 99, walletIndex := 1 }] },
         .error "Sell tokens for TOK failed after 3 attempts: sell reverted") := by
  rfl

/-- C1 amended: the durable update is persisted immediately after a
successful create and before any sell attempt — independent of the sell
outcome; when the create step fails, no update occurs and the create error
propagates. -/
theorem update_after_create_regardless_of_sell
    (createRes : Except String CreateOutcome)
    (sellRes : ℕ → Except String Unit) (sellPercentage maxRetries retryDelay : ℕ)
    (metadata : PreparedToken) (walletIndex : ℕ) (now : ℚ)
    (disk : Option BotState) :
    (∀ e, createRes = .error e →
      executeTokenCreation createRes sellRes sellPercentage maxRetries
          retryDelay metadata walletIndex now disk
        = ([.createFailed], disk, .error e)) ∧
    (∀ out, createRes = .ok out →
      (executeTokenCreation createRes sellRes sellPercentage maxRetries
          retryDelay metadata walletIndex now disk).2.1
        = some (commitMutator out.tokenAddress metadata now walletIndex
            (loadState disk)) ∧
      (executeTokenCreation createRes sellRes sellPercentage maxRetries
          retryDelay metadata walletIndex now disk).1.take 2
        = [.createOk, .stateUpdate] ∧
      (∀ ev ∈ (executeTokenCreation createRes sellRes sellPercentage maxRetries
          retryDelay metadata walletIndex now disk).1.drop 2,
        ∃ k, ev = .sellTry k) ∧
      (sellPercentage = 0 →
        (executeTokenCreation createRes sellRes sellPercentage maxRetries
          retryDelay metadata walletIndex now disk).2.2 = .ok ())) := by
  constructor
  · intro e he
    simp [executeTokenCreation, he]
  · intro out hout
    subst hout
    by_cases hsp : 0 < sellPercentage
    · refine ⟨?_, ?_, ?_, ?_⟩
      · simp [executeTokenCreation, hsp, updateState]
      · simp [executeTokenCreation, hsp]
      · intro ev hev
        simp only [executeTokenCreation, if_pos hsp, List.cons_append,
          List.nil_append, List.drop_succ_cons, List.drop_zero,
          List.mem_map] at hev
        obtain ⟨j, _, rfl⟩ := hev
        exact ⟨j + 1, rfl⟩
      · intro h0
        omega
    · have hsp0 : sellPercentage = 0 := by omega
      refine ⟨?_, ?_, ?_, ?_⟩
      · simp [executeTokenCreation, hsp, updateState]
      · simp [executeTokenCreation, hsp]
      · intro ev hev
        simp [executeTokenCreation, hsp] at hev
      · intro _
        simp [executeTokenCreation, hsp]

/-- Witness for C1's amended statement: a successful create with a
successful sell persists the committed record, and the trace starts with
create-then-update. -/
theorem update_after_create_regardless_of_sell_witness :
    (executeTokenCreation (.ok { tokenAddress := "0xT", tokensReceived := 500 })
        (fun _ => .ok ()) 100 3 5
        { name := "A", symbol := "TOK", tokenURI := "u" } 0 7 none).2.1
      = some (commitMutator "0xT"
          { name := "A", symbol := "TOK", tokenURI := "u" } 7 0
          (loadState none)) ∧
    (executeTokenCreation (.ok { tokenAddress := "0xT", tokensReceived := 500 })
        (fun _ => .ok ()) 100 3 5
        { name := "A", symbol := "TOK", tokenURI := "u" } 0 7 none).1.take 2
      = [.createOk, .stateUpdate] := by
  have h := (update_after_create_regardless_of_sell
    (.ok { tokenAddress := "0xT", tokensReceived := 500 })
    (fun _ => .ok ()) 100 3 5
    { name := "A", symbol := "TOK", tokenURI := "u" } 0 7 none).2
    { tokenAddress := "0xT", tokensReceived := 500 } rfl
  exact ⟨h.1, h.2.1⟩

end AutoCreateBot
